import Mathlib

/-!
Shallow embedding of the requirement-resolution engine of
src/requirements.cpp (Cataclysm-DDA): the three-tier satisfiability
algorithm (qualities, tools, components) with the cross-tier materials
check, the algebra operators (scaling by a batch multiplier,
concatenation of two requirement sets), and the disassembly derivation.

The mutable tri-state scratch field (available) of each requirement item
is modelled by explicit state passing: can_make_with_inventory takes a
requirement_data and returns the boolean result together with the
annotated requirement_data.  The inventory query contract and the item
type registry are modelled as structures of functions.
-/

/-- The availability tri-state written by the satisfiability pass
(available_status in the C++ code: a_true, a_false, a_insufficent;
the default-constructed state is modelled as unknown). -/
inductive Availability where
  | unknown
  | a_true
  | a_false
  | a_insufficent
deriving DecidableEq, Repr

/-- quality_requirement: { type, level, count } plus the transient
availability annotation. -/
structure quality_requirement where
  type : String
  level : Int
  count : Int
  available : Availability := .unknown
deriving DecidableEq, Repr

/-- tool_comp: { type, count } plus the availability annotation.
count > 0 means consumed by charges, count < 0 means by possession. -/
structure tool_comp where
  type : String
  count : Int
  available : Availability := .unknown
deriving DecidableEq, Repr

/-- item_comp: { type, count, recoverable } plus the availability
annotation. -/
structure item_comp where
  type : String
  count : Int
  recoverable : Bool := true
  available : Availability := .unknown
deriving DecidableEq, Repr

/-- requirement_data: id plus the three parallel lists of alternative
groups. -/
structure requirement_data where
  id_ : String
  qualities : List (List quality_requirement)
  tools : List (List tool_comp)
  components : List (List item_comp)
deriving DecidableEq, Repr

/-- The inventory query contract consumed by the engine
(has_quality, has_tools, has_charges, has_components). -/
structure inventory where
  has_quality : String → Int → Int → Bool
  has_tools : String → Int → Bool
  has_charges : String → Int → Bool
  has_components : String → Int → Bool

/-- The external game state the engine reads: the item type registry
(count_by_charges, the static qualities of an item type, the
UNRECOVERABLE flag) and the rope special case predicate
(player has the WEB_ROPE trait and hunger is at most 300). -/
structure GameEnv where
  count_by_charges : String → Bool
  item_qualities : String → List (String × Int)
  has_flag_unrecoverable : String → Bool
  web_rope_active : Bool

/-- tool_comp::by_charges: count > 0. -/
def tool_comp.by_charges (t : tool_comp) : Bool :=
  decide (0 < t.count)

/-- quality_requirement::has: inventory query for the quality at the
required level and count. -/
def quality_requirement.has (q : quality_requirement) (inv : inventory) : Bool :=
  inv.has_quality q.type q.level q.count

/-- tool_comp::has: by possession it asks has_tools with the absolute
count, by charges it asks has_charges with count times batch. -/
def tool_comp.has (t : tool_comp) (inv : inventory) (batch : Int) : Bool :=
  if t.by_charges then inv.has_charges t.type (t.count * batch)
  else inv.has_tools t.type |t.count|

/-- item_comp::has: the rope special case first, then has_charges or
has_components depending on count_by_charges, at abs count times batch. -/
def item_comp.has (c : item_comp) (env : GameEnv) (inv : inventory) (batch : Int) : Bool :=
  if (c.type == "rope_30" || c.type == "rope_6") && env.web_rope_active then true
  else
    let cnt : Int := |c.count| * batch
    if env.count_by_charges c.type then inv.has_charges c.type cnt
    else inv.has_components c.type cnt

/-- The marking step of has_comps for a quality requirement: set the
availability from the inventory query. -/
def mark_quality (inv : inventory) (q : quality_requirement) : quality_requirement :=
  { q with available := if q.has inv then .a_true else .a_false }

/-- The marking step of has_comps for a tool. -/
def mark_tool (inv : inventory) (batch : Int) (t : tool_comp) : tool_comp :=
  { t with available := if t.has inv batch then .a_true else .a_false }

/-- The marking step of has_comps for an item component. -/
def mark_item (env : GameEnv) (inv : inventory) (batch : Int) (c : item_comp) : item_comp :=
  { c with available := if c.has env inv batch then .a_true else .a_false }

/-- has_comps over the qualities list: mark every member, succeed when
every group has a member marked a_true. -/
def has_comps_quality (inv : inventory) (vec : List (List quality_requirement)) :
    Bool × List (List quality_requirement) :=
  let m := vec.map (fun g => g.map (mark_quality inv))
  (m.all (fun g => g.any (fun q => q.available == .a_true)), m)

/-- has_comps over the tools list. -/
def has_comps_tool (inv : inventory) (batch : Int) (vec : List (List tool_comp)) :
    Bool × List (List tool_comp) :=
  let m := vec.map (fun g => g.map (mark_tool inv batch))
  (m.all (fun g => g.any (fun t => t.available == .a_true)), m)

/-- has_comps over the components list. -/
def has_comps_item (env : GameEnv) (inv : inventory) (batch : Int)
    (vec : List (List item_comp)) : Bool × List (List item_comp) :=
  let m := vec.map (fun g => g.map (mark_item env inv batch))
  (m.all (fun g => g.any (fun c => c.available == .a_true)), m)

/-- find_by_type over the tools list: the first tool with the given item
type, scanning groups in order and members in order. -/
def find_by_type_tool (vec : List (List tool_comp)) (type : String) : Option tool_comp :=
  vec.flatten.find? (fun c => c.type == type)

/-- find_by_type over the qualities list. -/
def find_by_type_quality (vec : List (List quality_requirement)) (type : String) :
    Option quality_requirement :=
  vec.flatten.find? (fun q => q.type == type)

/-- One step of the quality loop of check_enough_materials: when the
item type provides quality ql and a quality requirement for it exists at
a level not above the provided one, and the inventory cannot supply the
quality at the combined count, demote to a_insufficent. -/
def quality_demote (inv : inventory) (qualities : List (List quality_requirement))
    (c : item_comp) (ql : String × Int) : item_comp :=
  match find_by_type_quality qualities ql.1 with
  | none => c
  | some qr =>
    if qr.level > ql.2 then c
    else if inv.has_quality qr.type qr.level (qr.count + |c.count|) then c
    else { c with available := .a_insufficent }

/-- The tool share of the combined quantity in check_enough_materials:
one when the tool is consumed by charges, else its absolute count. -/
def tool_claim (tq : tool_comp) : Int :=
  if tq.by_charges then 1 else |tq.count|

/-- check_enough_materials on a single component: the tool double-claim
probe followed by the quality loop; only runs when the component is
marked a_true. -/
def check_enough_materials_comp (env : GameEnv) (inv : inventory) (batch : Int)
    (tools : List (List tool_comp)) (qualities : List (List quality_requirement))
    (comp : item_comp) : item_comp :=
  if comp.available == .a_true then
    let cnt : Int := |comp.count| * batch
    let comp1 :=
      match find_by_type_tool tools comp.type with
      | some tq =>
        if tq.available == .a_true then
          let tc : Int := tool_claim tq
          let i_tmp : item_comp := { type := comp.type, count := cnt + tc }
          let t_tmp : tool_comp := { type := comp.type, count := -(cnt + tc) }
          if !(i_tmp.has env inv 1) && !(t_tmp.has inv 1) then
            { comp with available := .a_insufficent }
          else comp
        else comp
      | none => comp
    (env.item_qualities comp.type).foldl (quality_demote inv qualities) comp1
  else comp

/-- check_enough_materials over all component groups: run the per-item
check, succeed when every group keeps a member in a_true state. -/
def check_enough_materials (env : GameEnv) (inv : inventory) (batch : Int)
    (tools : List (List tool_comp)) (qualities : List (List quality_requirement))
    (components : List (List item_comp)) : Bool × List (List item_comp) :=
  let m := components.map (fun g =>
    g.map (check_enough_materials_comp env inv batch tools qualities))
  (m.all (fun g => g.any (fun c => c.available == .a_true)), m)

/-- can_make_with_inventory: the three has_comps passes followed by the
cross-tier materials check; all four are evaluated and the result is
their conjunction, and the annotated requirement_data is returned. -/
def can_make_with_inventory (env : GameEnv) (inv : inventory)
    (r : requirement_data) (batch : Int) : Bool × requirement_data :=
  let pq := has_comps_quality inv r.qualities
  let pt := has_comps_tool inv batch r.tools
  let pc := has_comps_item env inv batch r.components
  let pm := check_enough_materials env inv batch pt.2 pq.2 pc.2
  (pq.1 && pt.1 && pc.1 && pm.1,
   { r with qualities := pq.2, tools := pt.2, components := pm.2 })

/-- requirement_data::operator* (scaling by a batch multiplier): every
component and tool count becomes max(count * scalar, -1); qualities and
the id are untouched. -/
def req_mul (r : requirement_data) (scalar : Nat) : requirement_data :=
  { r with
    components := r.components.map (fun g =>
      g.map (fun e => { e with count := max (e.count * (scalar : Int)) (-1) }))
    tools := r.tools.map (fun g =>
      g.map (fun e => { e with count := max (e.count * (scalar : Int)) (-1) })) }

/-- requirement_data::operator+ (combining two sets): concatenate the
three group lists and reset the id to the null sentinel. -/
def req_add (a b : requirement_data) : requirement_data :=
  { id_ := "null"
    components := a.components ++ b.components
    tools := a.tools ++ b.tools
    qualities := a.qualities ++ b.qualities }

/-- The fixed substitution table of disassembly_requirements: a welding
or forging tool maps to the fine metal sawing quality, a sewing kit or
plastic mold maps to the cutting quality, a crucible clears its group
with no replacement, any other tool is not in the table. -/
def tool_subst (type : String) : Option (Option quality_requirement) :=
  if type == "welder" || type == "welder_crude" || type == "oxy_torch" ||
     type == "forge" || type == "char_forge" then
    some (some { type := "SAW_M_FINE", level := 1, count := 1 })
  else if type == "sewing_kit" || type == "mold_plastic" then
    some (some { type := "CUT", level := 1, count := 1 })
  else if type == "crucible" then
    some none
  else
    none

/-- The scan of one tool group in disassembly_requirements: the first
member that is in the substitution table decides the group substitution
(the scan stops there); none when no member is in the table. -/
def group_subst : List tool_comp → Option (Option quality_requirement)
  | [] => none
  | t :: ts =>
    match tool_subst t.type with
    | some rep => some rep
    | none => group_subst ts

/-- The substitution-produced qualities, in tool group order. -/
def subst_new_qualities (tools : List (List tool_comp)) : List quality_requirement :=
  tools.filterMap (fun g =>
    match group_subst g with
    | some (some q) => some q
    | _ => none)

/-- std::unique on a quality group with equality of the quality
identifier: drop an element equal in type to the last kept element. -/
def unique_go (kept : quality_requirement) :
    List quality_requirement → List quality_requirement
  | [] => []
  | b :: rest =>
    if kept.type == b.type then unique_go kept rest
    else b :: unique_go b rest

/-- std::unique over the whole group. -/
def unique_by_type : List quality_requirement → List quality_requirement
  | [] => []
  | a :: rest => a :: unique_go a rest

/-- Whether an item component is dropped by the recoverability filter of
disassembly_requirements: an explicit recoverable=false flag or the
item-type UNRECOVERABLE flag. -/
def comp_unrecoverable (env : GameEnv) (c : item_comp) : Bool :=
  !c.recoverable || env.has_flag_unrecoverable c.type

/-- requirement_data::disassembly_requirements: clear tool groups whose
scan hits the substitution table, append the produced qualities to the
first quality group (created when none exists) and run std::unique on
it, prune empty tool groups, filter unrecoverable components and prune
component groups left empty. -/
def disassembly_requirements (env : GameEnv) (r : requirement_data) : requirement_data :=
  let tools1 := r.tools.map (fun g =>
    if (group_subst g).isSome then ([] : List tool_comp) else g)
  let qualities1 := if r.qualities.isEmpty then [([] : List quality_requirement)]
                    else r.qualities
  let q0 := qualities1.headD [] ++ subst_new_qualities r.tools
  let qualities2 := unique_by_type q0 :: qualities1.tail
  let tools2 := tools1.filter (fun g => !g.isEmpty)
  let components2 := (r.components.map (fun g =>
      g.filter (fun c => !comp_unrecoverable env c))).filter (fun g => !g.isEmpty)
  { r with qualities := qualities2, tools := tools2, components := components2 }

/-!
Theorems.  Each claim of the specification is settled below; fixture
environments, inventories and requirement sets used by witnesses and
counterexamples are defined first.
-/

/-- Fixture environment: nothing counted by charges, no item provides a
quality, no UNRECOVERABLE flag, rope substitution inactive. -/
def env0 : GameEnv :=
  { count_by_charges := fun _ => false
    item_qualities := fun _ => []
    has_flag_unrecoverable := fun _ => false
    web_rope_active := false }

/-- Fixture inventory: four units of every item type, by tool count and
by component count; no charges and no qualities. -/
def inv4 : inventory :=
  { has_quality := fun _ _ _ => false
    has_tools := fun _ n => decide (n ≤ 4)
    has_charges := fun _ _ => false
    has_components := fun _ n => decide (n ≤ 4) }

/-- Fixture set for the C4 witness. -/
def R4 : requirement_data :=
  { id_ := "r"
    qualities := [[{ type := "CUT", level := 1, count := 1 }]]
    tools := [[{ type := "welder", count := -2 }, { type := "soldering_iron", count := 5 }]]
    components := [[{ type := "nail", count := 10 }]] }

/-- Fixture sets for the C5 witness. -/
def RA : requirement_data :=
  { id_ := "ra"
    qualities := [[{ type := "CUT", level := 1, count := 1 }]]
    tools := [[{ type := "hammer", count := -1 }]]
    components := [[{ type := "nail", count := 10 }], [{ type := "plank", count := 2 }]] }

/-- Second fixture set for the C5 witness. -/
def RB : requirement_data :=
  { id_ := "rb"
    qualities := []
    tools := [[{ type := "saw", count := -1 }]]
    components := [[{ type := "nail", count := 5 }]] }

/-- Fixture set for the C8 witness: the single component group consists
of an explicitly non-recoverable nail and a flag-unrecoverable shard. -/
def R8 : requirement_data :=
  { id_ := "r"
    qualities := []
    tools := []
    components := [[{ type := "nail", count := 5, recoverable := false },
                    { type := "shard", count := 1 }]] }

/-- Fixture environment for the C8 witness: shard carries the
UNRECOVERABLE flag. -/
def env8 : GameEnv :=
  { count_by_charges := fun _ => false
    item_qualities := fun _ => []
    has_flag_unrecoverable := fun t => t == "shard"
    web_rope_active := false }

/-- Fixture set for the C9 witness: one plain tool group, no qualities. -/
def R9 : requirement_data :=
  { id_ := "r"
    qualities := []
    tools := [[{ type := "hammer", count := -1 }]]
    components := [[{ type := "nail", count := 10 }]] }

/-- Fixture set for the C6 counterexample: three tool groups whose
substitutions produce CUT, SAW_M_FINE, CUT in that order. -/
def R6 : requirement_data :=
  { id_ := "r"
    qualities := []
    tools := [[{ type := "sewing_kit", count := -1 }],
              [{ type := "welder", count := -1 }],
              [{ type := "sewing_kit", count := -1 }]]
    components := [] }

/-- Fixture set for the C7 counterexample, first scenario: a welder-only
tool group but a nonempty base quality list. -/
def R7a : requirement_data :=
  { id_ := "r"
    qualities := [[{ type := "CUT", level := 1, count := 1 }]]
    tools := [[{ type := "welder", count := -1 }]]
    components := [] }

/-- Fixture set for the C7 counterexample, second scenario: the single
tool group contains a welder, but a sewing kit comes first in the
group. -/
def R7b : requirement_data :=
  { id_ := "r"
    qualities := []
    tools := [[{ type := "sewing_kit", count := -1 },
               { type := "welder", count := -1 }]]
    components := [] }

/-- Fixture set for the C1 witness: a hammer needed by possession
(magnitude 2) as tool and as a component (magnitude 3), against the
four-unit inventory (4 = 2 + 3 - 1). -/
def R1 : requirement_data :=
  { id_ := "r"
    qualities := []
    tools := [[{ type := "hammer", count := -2 }]]
    components := [[{ type := "hammer", count := 3 }]] }

/-- A Bool transcription of the demotion condition of the quality loop:
the provided quality ql matches a present quality requirement whose
level is at most the provided level and whose combined count (its own
count plus the absolute component count) the inventory cannot supply. -/
def demote_trigger (inv : inventory) (qualities : List (List quality_requirement))
    (count : Int) (ql : String × Int) : Bool :=
  match find_by_type_quality qualities ql.1 with
  | none => false
  | some qr =>
    decide (qr.level ≤ ql.2) && !inv.has_quality qr.type qr.level (qr.count + |count|)

/-- Fixture environment for C2: a knife provides the CUT quality at
level 1. -/
def env2 : GameEnv :=
  { count_by_charges := fun _ => false
    item_qualities := fun t => if t == "knife" then [("CUT", 1)] else []
    has_flag_unrecoverable := fun _ => false
    web_rope_active := false }

/-- Fixture inventory for C2: one knife as component, no quality
sources at all. -/
def inv2 : inventory :=
  { has_quality := fun _ _ _ => false
    has_tools := fun _ _ => false
    has_charges := fun _ _ => false
    has_components := fun _ n => decide (n ≤ 1) }

/-- Fixture set for C2: one CUT quality requirement and one knife
component. -/
def R2 : requirement_data :=
  { id_ := "r"
    qualities := [[{ type := "CUT", level := 1, count := 1 }]]
    tools := []
    components := [[{ type := "knife", count := 1 }]] }

/-- The annotated hammer component produced by the C1 fixture run, used
by the C10 witness. -/
def hammer_ins : item_comp :=
  { type := "hammer", count := 3, recoverable := true,
    available := .a_insufficent }

/-- C4. Scaling a requirement set by a positive integer n maps every
tool and component count to max(count * n, -1): positive by-charges
counts are multiplied exactly by n, negative by-possession counts are
clamped to -1, and the qualities list is unchanged. -/
theorem C4_scale_counts (r : requirement_data) (n : Nat) (hn : 0 < n) :
    (∀ (i j : Nat) (e : tool_comp), (r.tools[i]?.bind (fun g => g[j]?)) = some e →
        ((req_mul r n).tools[i]?.bind (fun g => g[j]?)) =
          some { e with count := max (e.count * (n : Int)) (-1) }) ∧
    (∀ (i j : Nat) (e : item_comp), (r.components[i]?.bind (fun g => g[j]?)) = some e →
        ((req_mul r n).components[i]?.bind (fun g => g[j]?)) =
          some { e with count := max (e.count * (n : Int)) (-1) }) ∧
    (∀ (i j : Nat) (e : tool_comp), (r.tools[i]?.bind (fun g => g[j]?)) = some e →
        0 < e.count →
        ((req_mul r n).tools[i]?.bind (fun g => g[j]?)) =
          some { e with count := e.count * (n : Int) }) ∧
    (∀ (i j : Nat) (e : tool_comp), (r.tools[i]?.bind (fun g => g[j]?)) = some e →
        e.count < 0 →
        ((req_mul r n).tools[i]?.bind (fun g => g[j]?)) =
          some { e with count := (-1 : Int) }) ∧
    (req_mul r n).qualities = r.qualities := by
  have htool : ∀ (i j : Nat) (e : tool_comp), (r.tools[i]?.bind (fun g => g[j]?)) = some e →
      ((req_mul r n).tools[i]?.bind (fun g => g[j]?)) =
        some { e with count := max (e.count * (n : Int)) (-1) } := by
    intro i j e he
    cases h : r.tools[i]? with
    | none => simp [h] at he
    | some g =>
      rw [h] at he
      simp only [Option.bind] at he
      simp [req_mul, List.getElem?_map, h, he]
  have hcomp : ∀ (i j : Nat) (e : item_comp), (r.components[i]?.bind (fun g => g[j]?)) = some e →
      ((req_mul r n).components[i]?.bind (fun g => g[j]?)) =
        some { e with count := max (e.count * (n : Int)) (-1) } := by
    intro i j e he
    cases h : r.components[i]? with
    | none => simp [h] at he
    | some g =>
      rw [h] at he
      simp only [Option.bind] at he
      simp [req_mul, List.getElem?_map, h, he]
  refine ⟨htool, hcomp, ?_, ?_, rfl⟩
  · intro i j e he hpos
    have h := htool i j e he
    have hmax : max (e.count * (n : Int)) (-1) = e.count * (n : Int) := by
      have hn1 : (1 : Int) ≤ (n : Int) := by exact_mod_cast hn
      have : (0 : Int) < e.count * (n : Int) := mul_pos hpos (by omega)
      omega
    rw [h, hmax]
  · intro i j e he hneg
    have h := htool i j e he
    have hmax : max (e.count * (n : Int)) (-1) = -1 := by
      have hn1 : (1 : Int) ≤ (n : Int) := by exact_mod_cast hn
      have h1 : e.count * (n : Int) ≤ e.count * 1 :=
        mul_le_mul_of_nonpos_left hn1 (by omega)
      omega
    rw [h, hmax]

/-- Witness for C4 at the fixture set and n = 2. -/
theorem C4_scale_counts_witness :
    ((req_mul R4 2).tools[0]?.bind (fun g => g[0]?)) =
      some { type := "welder", count := -1, available := .unknown } ∧
    ((req_mul R4 2).tools[0]?.bind (fun g => g[1]?)) =
      some { type := "soldering_iron", count := 10, available := .unknown } ∧
    ((req_mul R4 2).components[0]?.bind (fun g => g[0]?)) =
      some { type := "nail", count := 20, recoverable := true, available := .unknown } ∧
    (req_mul R4 2).qualities = R4.qualities := by
  obtain ⟨h1, h2, h3, h4, h5⟩ := C4_scale_counts R4 2 (by decide)
  refine ⟨?_, ?_, ?_, h5⟩
  · have h := h4 0 0 { type := "welder", count := -2 } rfl (by decide)
    rw [h]
  · have h := h3 0 1 { type := "soldering_iron", count := 5 } rfl (by decide)
    rw [h]
    decide
  · have h := h2 0 0 { type := "nail", count := 10 } rfl
    rw [h]
    decide

/-- C5. Combining two requirement sets concatenates the three group
lists: lengths add, every group of the left operand keeps its index,
every group of the right operand appears shifted by the left length,
and the result id is the null sentinel. -/
theorem C5_combine_concat (a b : requirement_data) :
    (req_add a b).components.length = a.components.length + b.components.length ∧
    (req_add a b).tools.length = a.tools.length + b.tools.length ∧
    (req_add a b).qualities.length = a.qualities.length + b.qualities.length ∧
    (∀ i, i < a.components.length →
        (req_add a b).components[i]? = a.components[i]?) ∧
    (∀ i, (req_add a b).components[a.components.length + i]? = b.components[i]?) ∧
    (∀ i, i < a.tools.length → (req_add a b).tools[i]? = a.tools[i]?) ∧
    (∀ i, (req_add a b).tools[a.tools.length + i]? = b.tools[i]?) ∧
    (∀ i, i < a.qualities.length → (req_add a b).qualities[i]? = a.qualities[i]?) ∧
    (∀ i, (req_add a b).qualities[a.qualities.length + i]? = b.qualities[i]?) ∧
    (req_add a b).id_ = "null" := by
  refine ⟨by simp [req_add], by simp [req_add], by simp [req_add],
    ?_, ?_, ?_, ?_, ?_, ?_, rfl⟩
  · intro i hi
    simp [req_add, List.getElem?_append, hi]
  · intro i
    simp only [req_add]
    rw [List.getElem?_append_right (by omega)]
    simp
  · intro i hi
    simp [req_add, List.getElem?_append, hi]
  · intro i
    simp only [req_add]
    rw [List.getElem?_append_right (by omega)]
    simp
  · intro i hi
    simp [req_add, List.getElem?_append, hi]
  · intro i
    simp only [req_add]
    rw [List.getElem?_append_right (by omega)]
    simp

/-- Witness for C5 at the fixture sets. -/
theorem C5_combine_concat_witness :
    (req_add RA RB).components.length = 3 ∧
    (req_add RA RB).tools.length = 2 ∧
    (req_add RA RB).qualities.length = 1 ∧
    (req_add RA RB).components[0]? = RA.components[0]? ∧
    (req_add RA RB).components[2]? = RB.components[0]? ∧
    (req_add RA RB).tools[1]? = RB.tools[0]? ∧
    (req_add RA RB).id_ = "null" := by
  obtain ⟨h1, h2, h3, h4, h5, h6, h7, h8, h9, h10⟩ := C5_combine_concat RA RB
  exact ⟨h1, h2, h3, h4 0 (by decide), h5 0, h7 0, h10⟩


/-- Helper: a group scan hits nothing when no member is in the
substitution table. -/
theorem group_subst_eq_none (g : List tool_comp)
    (h : ∀ t ∈ g, tool_subst t.type = none) : group_subst g = none := by
  induction g with
  | nil => rfl
  | cons t ts ih =>
    have ht := h t (List.mem_cons_self t ts)
    simp only [group_subst, ht]
    exact ih (fun x hx => h x (List.mem_cons_of_mem t hx))

/-- C8. When every member of a component group is unrecoverable, the
disassembly derivation drops the whole group: the output equals the
output computed without that group, and no empty group is ever present
in the output components. -/
theorem C8_unrecoverable_group_dropped (env : GameEnv) (r : requirement_data)
    (pre post : List (List item_comp)) (g : List item_comp)
    (hc : r.components = pre ++ g :: post)
    (hall : ∀ c ∈ g, comp_unrecoverable env c = true) :
    (disassembly_requirements env r).components =
      (disassembly_requirements env
        { r with components := pre ++ post }).components ∧
    [] ∉ (disassembly_requirements env r).components := by
  have hg : g.filter (fun c => !comp_unrecoverable env c) = [] := by
    apply List.filter_eq_nil_iff.mpr
    intro c hcg
    simp [hall c hcg]
  constructor
  · simp only [disassembly_requirements, hc]
    simp [List.map_append, List.filter_append, hg]
  · intro hmem
    simp only [disassembly_requirements] at hmem
    have := (List.mem_filter.mp hmem).2
    simp at this

/-- Witness for C8 at the fixture set. -/
theorem C8_unrecoverable_group_dropped_witness :
    (disassembly_requirements env8 R8).components =
      (disassembly_requirements env8 { R8 with components := [] }).components ∧
    [] ∉ (disassembly_requirements env8 R8).components := by
  have h := C8_unrecoverable_group_dropped env8 R8 [] []
    R8.components.head! (by rfl) (by decide)
  simpa using h

/-- C9. When the base set has no quality requirement and no tool group
holds any substitution-table tool, the derived set has exactly one
quality group and that group is empty; and a set with an empty group in
any of its three lists can never be made with any inventory at any
batch. -/
theorem C9_empty_quality_group_unsatisfiable (env : GameEnv) (r : requirement_data)
    (hq : r.qualities = [])
    (ht : ∀ g ∈ r.tools, ∀ t ∈ g,
        t.type ∉ ["welder", "welder_crude", "oxy_torch", "forge", "char_forge",
                  "sewing_kit", "mold_plastic", "crucible"]) :
    (disassembly_requirements env r).qualities = [[]] ∧
    (∀ (env2 : GameEnv) (inv : inventory) (batch : Int)
        (r2 : requirement_data),
        ([] ∈ r2.qualities ∨ [] ∈ r2.tools ∨ [] ∈ r2.components) →
        (can_make_with_inventory env2 inv r2 batch).1 = false) ∧
    (∀ (env2 : GameEnv) (inv : inventory) (batch : Int),
        (can_make_with_inventory env2 inv (disassembly_requirements env r) batch).1
          = false) := by
  have hsubst : ∀ g ∈ r.tools, group_subst g = none := by
    intro g hg
    apply group_subst_eq_none
    intro t htg
    have := ht g hg t htg
    simp only [List.mem_cons, List.mem_singleton] at this
    push_neg at this
    obtain ⟨h1, h2, h3, h4, h5, h6, h7, h8⟩ := this
    simp [tool_subst, h1, h2, h3, h4, h5, h6, h7, h8]
  have hnew : subst_new_qualities r.tools = [] := by
    apply List.filterMap_eq_nil_iff.mpr
    intro g hg
    simp [hsubst g hg]
  have hquals : (disassembly_requirements env r).qualities = [[]] := by
    simp [disassembly_requirements, hq, hnew, unique_by_type]
  have hempty : ∀ (env2 : GameEnv) (inv : inventory) (batch : Int)
      (r2 : requirement_data),
      ([] ∈ r2.qualities ∨ [] ∈ r2.tools ∨ [] ∈ r2.components) →
      (can_make_with_inventory env2 inv r2 batch).1 = false := by
    intro env2 inv batch r2 hmem
    rcases hmem with hm | hm | hm
    · have : (has_comps_quality inv r2.qualities).1 = false := by
        simp only [has_comps_quality, List.all_eq_false]
        exact ⟨[], List.mem_map_of_mem _ hm, by simp⟩
      simp [can_make_with_inventory, this]
    · have : (has_comps_tool inv batch r2.tools).1 = false := by
        simp only [has_comps_tool, List.all_eq_false]
        exact ⟨[], List.mem_map_of_mem _ hm, by simp⟩
      simp [can_make_with_inventory, this]
    · have : (has_comps_item env2 inv batch r2.components).1 = false := by
        simp only [has_comps_item, List.all_eq_false]
        exact ⟨[], List.mem_map_of_mem _ hm, by simp⟩
      simp [can_make_with_inventory, this]
  refine ⟨hquals, hempty, ?_⟩
  intro env2 inv batch
  exact hempty env2 inv batch _ (Or.inl (by rw [hquals]; exact List.mem_singleton.mpr rfl))

/-- Witness for C9 at the fixture set. -/
theorem C9_empty_quality_group_unsatisfiable_witness :
    (disassembly_requirements env0 R9).qualities = [[]] ∧
    (can_make_with_inventory env0 inv4 (disassembly_requirements env0 R9) 1).1
      = false := by
  have h := C9_empty_quality_group_unsatisfiable env0 R9 rfl (by decide)
  exact ⟨h.1, h.2.2 env0 inv4 1⟩

/-- Helper: the std::unique scan keeps no element whose quality id
equals that of the last kept element, so the kept element chains to the
rest with pairwise-adjacent distinct ids. -/
theorem unique_go_chain (l : List quality_requirement) :
    ∀ a, List.Chain (fun x y => x.type ≠ y.type) a (unique_go a l) := by
  induction l with
  | nil => intro a; exact List.Chain.nil
  | cons b rest ih =>
    intro a
    by_cases h : (a.type == b.type) = true
    · simp only [unique_go, h, if_true]
      exact ih a
    · simp only [unique_go, h]
      simp only [Bool.not_eq_true] at h
      exact List.Chain.cons (by simpa using h) (ih b)

/-- Counterexample to C6: after disassembly derivation the first quality
group is CUT, SAW_M_FINE, CUT, which contains two entries with the same
quality identifier at non-adjacent positions; the claimed removal of
duplicates regardless of position does not happen. -/
theorem C6_counterexample :
    (disassembly_requirements env0 R6).qualities.headD [] =
      [{ type := "CUT", level := 1, count := 1, available := .unknown },
       { type := "SAW_M_FINE", level := 1, count := 1, available := .unknown },
       { type := "CUT", level := 1, count := 1, available := .unknown }] ∧
    ¬ List.Pairwise (fun a b => a.type ≠ b.type)
        ((disassembly_requirements env0 R6).qualities.headD []) := by
  constructor
  · decide
  · decide

/-- C6 (amended). Substitution-produced qualities are appended into the
first quality group (created when none exists), and the std::unique
pass removes an entry exactly when its quality identifier equals the
identifier of the immediately preceding kept entry: the resulting first
group has no two adjacent entries with the same quality identifier, but
equal identifiers separated by a different one remain. -/
theorem C6_amended_adjacent_dedup (env : GameEnv) (r : requirement_data) :
    (disassembly_requirements env r).qualities.headD [] =
      unique_by_type (r.qualities.headD [] ++ subst_new_qualities r.tools) ∧
    List.Chain' (fun a b => a.type ≠ b.type)
      ((disassembly_requirements env r).qualities.headD []) := by
  have hhead : (disassembly_requirements env r).qualities.headD [] =
      unique_by_type (r.qualities.headD [] ++ subst_new_qualities r.tools) := by
    simp only [disassembly_requirements]
    cases r.qualities with
    | nil => simp
    | cons q qs => simp
  refine ⟨hhead, ?_⟩
  rw [hhead]
  cases h : r.qualities.headD [] ++ subst_new_qualities r.tools with
  | nil => simp [unique_by_type]
  | cons a rest =>
    simp only [unique_by_type]
    exact unique_go_chain rest a

/-- Counterexample to C7: on R7a (tool list is exactly one group
containing a welder) the derived quality list holds two quality
requirements, not exactly one; on R7b (also exactly one group containing
a welder) the derived quality list holds the cutting quality, not fine
metal sawing. -/
theorem C7_counterexample :
    ((disassembly_requirements env0 R7a).tools = [] ∧
     (disassembly_requirements env0 R7a).qualities.flatten =
       [{ type := "CUT", level := 1, count := 1, available := .unknown },
        { type := "SAW_M_FINE", level := 1, count := 1, available := .unknown }] ∧
     ¬ (disassembly_requirements env0 R7a).qualities.flatten.length = 1) ∧
    ((disassembly_requirements env0 R7b).tools = [] ∧
     (disassembly_requirements env0 R7b).qualities.flatten =
       [{ type := "CUT", level := 1, count := 1, available := .unknown }]) := by
  refine ⟨⟨by decide, by decide, by decide⟩, by decide, by decide⟩

/-- Helper: a group whose members are each either out of the
substitution table or mapped to the fine metal sawing quality, with at
least one member mapped, scans to the fine metal sawing substitution. -/
theorem group_subst_weld (g : List tool_comp)
    (hall : ∀ t ∈ g, tool_subst t.type = none ∨
        tool_subst t.type =
          some (some { type := "SAW_M_FINE", level := 1, count := 1 }))
    (hex : ∃ t ∈ g, tool_subst t.type =
        some (some { type := "SAW_M_FINE", level := 1, count := 1 })) :
    group_subst g =
      some (some { type := "SAW_M_FINE", level := 1, count := 1 }) := by
  induction g with
  | nil => obtain ⟨t, ht, _⟩ := hex; exact absurd ht (List.not_mem_nil t)
  | cons t ts ih =>
    rcases hall t (List.mem_cons_self t ts) with hh | hh
    · simp only [group_subst, hh]
      apply ih
      · intro x hx; exact hall x (List.mem_cons_of_mem t hx)
      · obtain ⟨w, hw, hws⟩ := hex
        rcases List.mem_cons.mp hw with rfl | hw2
        · rw [hh] at hws; exact absurd hws (by simp)
        · exact ⟨w, hw2, hws⟩
    · simp only [group_subst, hh]

/-- C7 (amended). When the base set has no quality requirement and the
tool list is exactly one group that contains a welder and contains no
sewing kit, plastic mold, or crucible, the derived set has an empty tool
list and its quality list is exactly one group holding the fine metal
sawing quality requirement at level 1 with count 1. -/
theorem C7_amended_welder_group (env : GameEnv) (r : requirement_data)
    (g : List tool_comp)
    (hq : r.qualities = [])
    (ht : r.tools = [g])
    (hw : ∃ t ∈ g, t.type = "welder")
    (hno : ∀ t ∈ g, t.type ≠ "sewing_kit" ∧ t.type ≠ "mold_plastic" ∧
        t.type ≠ "crucible") :
    (disassembly_requirements env r).tools = [] ∧
    (disassembly_requirements env r).qualities =
      [[{ type := "SAW_M_FINE", level := 1, count := 1, available := .unknown }]] := by
  have hgs : group_subst g =
      some (some { type := "SAW_M_FINE", level := 1, count := 1 }) := by
    apply group_subst_weld
    · intro t htg
      obtain ⟨h1, h2, h3⟩ := hno t htg
      by_cases hweld : (t.type == "welder" || t.type == "welder_crude" ||
          t.type == "oxy_torch" || t.type == "forge" || t.type == "char_forge") = true
      · right; simp [tool_subst, hweld]
      · left
        simp only [tool_subst, hweld, if_false]
        simp [h1, h2, h3]
    · obtain ⟨t, htg, hty⟩ := hw
      exact ⟨t, htg, by simp [tool_subst, hty]⟩
  constructor
  · simp [disassembly_requirements, ht, hgs]
  · simp [disassembly_requirements, ht, hq, hgs, subst_new_qualities,
      unique_by_type, unique_go]

/-- Witness for the amended C7 at a concrete two-tool group. -/
theorem C7_amended_welder_group_witness :
    (disassembly_requirements env0
      { id_ := "r", qualities := [],
        tools := [[{ type := "hammer", count := -1 },
                   { type := "welder", count := -1 }]],
        components := [] }).tools = [] ∧
    (disassembly_requirements env0
      { id_ := "r", qualities := [],
        tools := [[{ type := "hammer", count := -1 },
                   { type := "welder", count := -1 }]],
        components := [] }).qualities =
      [[{ type := "SAW_M_FINE", level := 1, count := 1, available := .unknown }]] := by
  exact C7_amended_welder_group env0 _
    [{ type := "hammer", count := -1 }, { type := "welder", count := -1 }]
    rfl rfl ⟨{ type := "welder", count := -1 }, by decide, rfl⟩ (by decide)


/-- Helper: a by-possession tool is checked against has_tools with its
absolute count. -/
theorem tool_has_of_not_charges (t : tool_comp) (inv : inventory) (b : Int)
    (h : ¬ 0 < t.count) : t.has inv b = inv.has_tools t.type |t.count| := by
  simp only [tool_comp.has, tool_comp.by_charges]
  exact if_neg (by simpa using h)

/-- Helper: a non-rope, non-charge-counted item component is checked
against has_components at abs count times batch. -/
theorem item_has_plain (c : item_comp) (env : GameEnv) (inv : inventory) (b : Int)
    (h1 : c.type ≠ "rope_30") (h2 : c.type ≠ "rope_6")
    (h3 : env.count_by_charges c.type = false) :
    c.has env inv b = inv.has_components c.type (|c.count| * b) := by
  have e1 : (c.type == "rope_30") = false := by simpa using h1
  have e2 : (c.type == "rope_6") = false := by simpa using h2
  simp only [item_comp.has, e1, e2, Bool.or_self, Bool.false_or, Bool.false_and,
    Bool.false_eq_true, if_false, h3]

/-- Helper: when the component is marked a_true, the first tool of the
same type is marked a_true, both combined-count probes fail and the item
type provides no quality, the per-component materials check demotes the
component to a_insufficent. -/
theorem check_comp_tool_insufficient (env : GameEnv) (inv : inventory) (batch : Int)
    (tools : List (List tool_comp)) (qualities : List (List quality_requirement))
    (comp : item_comp) (tq : tool_comp)
    (hav : comp.available = .a_true)
    (hfind : find_by_type_tool tools comp.type = some tq)
    (htq : tq.available = .a_true)
    (hitmp : item_comp.has
        { type := comp.type, count := |comp.count| * batch + tool_claim tq }
        env inv 1 = false)
    (httmp : tool_comp.has
        { type := comp.type, count := -(|comp.count| * batch + tool_claim tq) }
        inv 1 = false)
    (hnoq : env.item_qualities comp.type = []) :
    check_enough_materials_comp env inv batch tools qualities comp =
      { comp with available := .a_insufficent } := by
  simp only [check_enough_materials_comp, hav, hfind, htq, hitmp, httmp, hnoq]
  simp

/-- C1. When an item type is needed both as a by-possession tool of
magnitude T and as a component of magnitude C (batch 1), the quality
list is empty, the item type is not charge counted, provides no
quality, is not the rope special case, and the inventory supplies
exactly T + C - 1 units of it both by tool count and by component
count, then can_make_with_inventory marks the component a_insufficent
(not a_true) and returns false. -/
theorem C1_double_claim_insufficient
    (env : GameEnv) (inv : inventory) (ty : String) (T C : Int) (rec : Bool)
    (hT : 1 ≤ T) (hC : 1 ≤ C)
    (hr1 : ty ≠ "rope_30") (hr2 : ty ≠ "rope_6")
    (hcbc : env.count_by_charges ty = false)
    (hql : env.item_qualities ty = [])
    (htools : ∀ n : Int, inv.has_tools ty n = decide (n ≤ T + C - 1))
    (hcomps : ∀ n : Int, inv.has_components ty n = decide (n ≤ T + C - 1)) :
    (can_make_with_inventory env inv
      { id_ := "r", qualities := [],
        tools := [[{ type := ty, count := -T }]],
        components := [[{ type := ty, count := C, recoverable := rec }]] } 1).1
      = false ∧
    (can_make_with_inventory env inv
      { id_ := "r", qualities := [],
        tools := [[{ type := ty, count := -T }]],
        components := [[{ type := ty, count := C, recoverable := rec }]] } 1).2.components
      = [[{ type := ty, count := C, recoverable := rec,
            available := .a_insufficent }]] := by
  have habsT : |(-T)| = T := by
    rw [abs_neg]; exact abs_of_nonneg (by omega)
  have habsC : |C| = C := abs_of_nonneg (by omega)
  have habsCT : |C + T| = C + T := abs_of_nonneg (by omega)
  have habsnCT : |(-(C + T))| = C + T := by rw [abs_neg]; exact habsCT
  have hthas : tool_comp.has { type := ty, count := -T, available := .unknown } inv 1
      = true := by
    rw [tool_has_of_not_charges _ _ _ (by simp; omega)]
    show inv.has_tools ty |(-T)| = true
    rw [habsT, htools]
    exact decide_eq_true (by omega)
  have hchas : item_comp.has
      { type := ty, count := C, recoverable := rec, available := .unknown }
      env inv 1 = true := by
    rw [item_has_plain _ _ _ _ hr1 hr2 hcbc]
    show inv.has_components ty (|C| * 1) = true
    rw [habsC, mul_one, hcomps]
    exact decide_eq_true (by omega)
  have hihas : item_comp.has
      { type := ty, count := C + T, recoverable := true, available := .unknown }
      env inv 1 = false := by
    rw [item_has_plain _ _ _ _ hr1 hr2 hcbc]
    show inv.has_components ty (|C + T| * 1) = false
    rw [habsCT, mul_one, hcomps]
    exact decide_eq_false (by omega)
  have htthas : tool_comp.has
      { type := ty, count := -(C + T), available := .unknown } inv 1
      = false := by
    rw [tool_has_of_not_charges _ _ _ (by simp; omega)]
    show inv.has_tools ty |(-(C + T))| = false
    rw [habsnCT, htools]
    exact decide_eq_false (by omega)
  have htc : tool_claim { type := ty, count := -T, available := .a_true } = T := by
    simp only [tool_claim, tool_comp.by_charges]
    rw [if_neg (by simp; omega)]
    exact habsT
  have hfind : find_by_type_tool [[{ type := ty, count := -T, available := .a_true }]] ty
      = some { type := ty, count := -T, available := .a_true } := by
    simp [find_by_type_tool]
  have hitmp : item_comp.has
      { type := ty,
        count := |C| * 1 + tool_claim { type := ty, count := -T, available := .a_true } }
      env inv 1 = false := by
    rw [htc, habsC, mul_one]
    exact hihas
  have httmp : tool_comp.has
      { type := ty,
        count := -(|C| * 1 +
          tool_claim { type := ty, count := -T, available := .a_true }) }
      inv 1 = false := by
    rw [htc, habsC, mul_one]
    exact htthas
  have echk : check_enough_materials_comp env inv 1
      [[{ type := ty, count := -T, available := .a_true }]] []
      { type := ty, count := C, recoverable := rec, available := .a_true }
      = { type := ty, count := C, recoverable := rec,
          available := .a_insufficent } :=
    check_comp_tool_insufficient env inv 1 _ _ _ _ rfl hfind rfl hitmp httmp hql
  constructor
  · simp [can_make_with_inventory, has_comps_quality, has_comps_tool,
      has_comps_item, check_enough_materials, mark_tool, mark_item,
      hthas, hchas, echk]
  · simp [can_make_with_inventory, has_comps_quality, has_comps_tool,
      has_comps_item, check_enough_materials, mark_tool, mark_item,
      hthas, hchas, echk]

/-- Witness for C1 at the hammer fixture. -/
theorem C1_double_claim_insufficient_witness :
    (can_make_with_inventory env0 inv4 R1 1).1 = false ∧
    (can_make_with_inventory env0 inv4 R1 1).2.components =
      [[{ type := "hammer", count := 3, recoverable := true,
          available := .a_insufficent }]] := by
  have h := C1_double_claim_insufficient env0 inv4 "hammer" 2 3 true
    (by decide) (by decide) (by decide) (by decide) rfl rfl
    (fun n => by norm_num [inv4]) (fun n => by norm_num [inv4])
  exact h

/-- Counterexample to C2: the quality requirement is not satisfied
(marked a_false), yet the quality path still demotes the knife component
to a_insufficent, contradicting the claim that no demotion occurs for
quality requirements that are not active. -/
theorem C2_counterexample :
    (can_make_with_inventory env2 inv2 R2 1).2.qualities =
      [[{ type := "CUT", level := 1, count := 1, available := .a_false }]] ∧
    (can_make_with_inventory env2 inv2 R2 1).2.components =
      [[{ type := "knife", count := 1, recoverable := true,
          available := .a_insufficent }]] := by
  constructor
  · decide
  · decide

/-- Helper: one step of the quality loop equals an if on the Bool
demotion condition. -/
theorem quality_demote_eq (inv : inventory) (qs : List (List quality_requirement))
    (c : item_comp) (ql : String × Int) :
    quality_demote inv qs c ql =
      if demote_trigger inv qs c.count ql then { c with available := .a_insufficent }
      else c := by
  unfold quality_demote demote_trigger
  cases h : find_by_type_quality qs ql.1 with
  | none => simp
  | some qr =>
    by_cases h1 : qr.level > ql.2
    · have hd : decide (qr.level ≤ ql.2) = false := decide_eq_false (by omega)
      simp [h1, hd]
    · have hd : decide (qr.level ≤ ql.2) = true := decide_eq_true (by omega)
      by_cases h2 : inv.has_quality qr.type qr.level (qr.count + |c.count|) = true
      · simp [h1, hd, h2]
      · simp only [Bool.not_eq_true] at h2
        simp [h1, hd, h2]

/-- Helper: the quality loop never leaves the a_insufficent state. -/
theorem foldl_demote_insuff (inv : inventory) (qs : List (List quality_requirement)) :
    ∀ (l : List (String × Int)) (c : item_comp), c.available = .a_insufficent →
      (l.foldl (quality_demote inv qs) c).available = .a_insufficent := by
  intro l
  induction l with
  | nil => intro c h; exact h
  | cons ql rest ih =>
    intro c h
    rw [List.foldl_cons, quality_demote_eq]
    by_cases ht : demote_trigger inv qs c.count ql = true
    · rw [if_pos ht]; exact ih _ rfl
    · rw [if_neg ht]; exact ih c h

/-- Helper: on a component entering in the a_true state, the quality
loop ends a_insufficent exactly when some provided quality triggers the
demotion condition, else ends a_true. -/
theorem foldl_demote_spec (inv : inventory) (qs : List (List quality_requirement)) :
    ∀ (l : List (String × Int)) (c : item_comp), c.available = .a_true →
      (l.foldl (quality_demote inv qs) c).available =
        (if l.any (demote_trigger inv qs c.count) then .a_insufficent
         else .a_true) := by
  intro l
  induction l with
  | nil => intro c h; simpa using h
  | cons ql rest ih =>
    intro c h
    rw [List.foldl_cons, quality_demote_eq]
    by_cases ht : demote_trigger inv qs c.count ql = true
    · rw [if_pos ht]
      have hins : (rest.foldl (quality_demote inv qs)
          { c with available := .a_insufficent }).available = .a_insufficent :=
        foldl_demote_insuff inv qs rest _ rfl
      rw [hins]
      simp [List.any_cons, ht]
    · rw [if_neg ht]
      rw [ih c h]
      have hf : demote_trigger inv qs c.count ql = false := by simpa using ht
      rw [List.any_cons, hf, Bool.false_or]

/-- C2 (amended). For a component marked a_true whose item type has no
same-type tool requirement, the materials check ends a_insufficent
exactly when the item type provides a quality that matches a present
quality requirement with required level at most the provided level whose
combined count the inventory cannot supply; the availability state of
the quality requirement itself is never consulted, so demotion also
happens for quality requirements that are not satisfied. -/
theorem C2_amended_quality_demotion (env : GameEnv) (inv : inventory) (batch : Int)
    (tools : List (List tool_comp)) (qualities : List (List quality_requirement))
    (comp : item_comp)
    (hav : comp.available = .a_true)
    (hnotool : find_by_type_tool tools comp.type = none) :
    (check_enough_materials_comp env inv batch tools qualities comp).available =
      (if (env.item_qualities comp.type).any (demote_trigger inv qualities comp.count)
       then .a_insufficent else .a_true) := by
  have h := foldl_demote_spec inv qualities (env.item_qualities comp.type) comp hav
  simp only [check_enough_materials_comp, hav, hnotool]
  simpa using h

/-- Witness for the amended C2 at the knife fixture: the CUT
requirement is unsatisfiable in inv2, yet demotion still occurs. -/
theorem C2_amended_quality_demotion_witness :
    (check_enough_materials_comp env2 inv2 1 []
        [[{ type := "CUT", level := 1, count := 1 }]]
        { type := "knife", count := 1, available := .a_true }).available =
      .a_insufficent := by
  have h := C2_amended_quality_demotion env2 inv2 1 []
    [[{ type := "CUT", level := 1, count := 1 }]]
    { type := "knife", count := 1, available := .a_true } rfl rfl
  rw [h]
  decide

/-- Helper: the quality loop either keeps the availability or sets
a_insufficent. -/
theorem foldl_demote_avail (inv : inventory) (qs : List (List quality_requirement)) :
    ∀ (l : List (String × Int)) (c : item_comp),
      (l.foldl (quality_demote inv qs) c).available = c.available ∨
      (l.foldl (quality_demote inv qs) c).available = .a_insufficent := by
  intro l
  induction l with
  | nil => intro c; left; rfl
  | cons ql rest ih =>
    intro c
    rw [List.foldl_cons, quality_demote_eq]
    by_cases ht : demote_trigger inv qs c.count ql = true
    · rw [if_pos ht]
      right
      exact foldl_demote_insuff inv qs rest _ rfl
    · rw [if_neg ht]
      exact ih c

/-- Helper: the per-component materials check either keeps the
availability or sets a_insufficent. -/
theorem chk_avail_cases (env : GameEnv) (inv : inventory) (batch : Int)
    (tools : List (List tool_comp)) (qs : List (List quality_requirement))
    (comp : item_comp) :
    (check_enough_materials_comp env inv batch tools qs comp).available
      = comp.available ∨
    (check_enough_materials_comp env inv batch tools qs comp).available
      = .a_insufficent := by
  simp only [check_enough_materials_comp]
  split
  · have hcomp : ∀ x : item_comp,
        (x = comp ∨ x = { comp with available := .a_insufficent }) →
        ((env.item_qualities comp.type).foldl (quality_demote inv qs) x).available
            = comp.available ∨
        ((env.item_qualities comp.type).foldl (quality_demote inv qs) x).available
            = .a_insufficent := by
      intro x hx
      rcases hx with h | h
      · rw [h]
        exact foldl_demote_avail inv qs _ comp
      · rw [h]
        right
        exact foldl_demote_insuff inv qs _ _ rfl
    apply hcomp
    split
    · split
      · split
        · right; rfl
        · left; rfl
      · left; rfl
    · left; rfl
  · left; rfl

/-- C10. After can_make_with_inventory, no item is left in the unknown
state: every quality and tool is exactly a_true or a_false, and every
component is a_true, a_false or a_insufficent (only components can be
a_insufficent). -/
theorem C10_no_unknown_states (env : GameEnv) (inv : inventory) (batch : Int)
    (r : requirement_data) :
    (∀ g ∈ (can_make_with_inventory env inv r batch).2.qualities, ∀ q ∈ g,
        q.available = .a_true ∨ q.available = .a_false) ∧
    (∀ g ∈ (can_make_with_inventory env inv r batch).2.tools, ∀ t ∈ g,
        t.available = .a_true ∨ t.available = .a_false) ∧
    (∀ g ∈ (can_make_with_inventory env inv r batch).2.components, ∀ c ∈ g,
        c.available = .a_true ∨ c.available = .a_false ∨
          c.available = .a_insufficent) := by
  refine ⟨?_, ?_, ?_⟩
  · intro g hg q hq
    simp only [can_make_with_inventory, has_comps_quality] at hg
    obtain ⟨g0, hg0, rfl⟩ := List.mem_map.mp hg
    obtain ⟨q0, hq0, rfl⟩ := List.mem_map.mp hq
    by_cases h : q0.has inv = true
    · left; simp [mark_quality, h]
    · right; simp [mark_quality, h]
  · intro g hg t ht
    simp only [can_make_with_inventory, has_comps_tool] at hg
    obtain ⟨g0, hg0, rfl⟩ := List.mem_map.mp hg
    obtain ⟨t0, ht0, rfl⟩ := List.mem_map.mp ht
    by_cases h : t0.has inv batch = true
    · left; simp [mark_tool, h]
    · right; simp [mark_tool, h]
  · intro g hg c hc
    simp only [can_make_with_inventory, has_comps_item,
      check_enough_materials] at hg
    obtain ⟨g1, hg1, rfl⟩ := List.mem_map.mp hg
    obtain ⟨g0, hg0, rfl⟩ := List.mem_map.mp hg1
    obtain ⟨c1, hc1, rfl⟩ := List.mem_map.mp hc
    obtain ⟨c0, hc0, rfl⟩ := List.mem_map.mp hc1
    rcases chk_avail_cases env inv batch
        (has_comps_tool inv batch r.tools).2
        (has_comps_quality inv r.qualities).2
        (mark_item env inv batch c0) with h | h
    · rw [h]
      by_cases h0 : c0.has env inv batch = true
      · left; simp [mark_item, h0]
      · right; left; simp [mark_item, h0]
    · right; right; exact h

/-- Witness for C10 at the hammer fixture. -/
theorem C10_no_unknown_states_witness :
    ((can_make_with_inventory env0 inv4 R1 1).2.components.headD [])[0]?.map
        (fun c => c.available) = some .a_insufficent ∧
    ((can_make_with_inventory env0 inv4 R1 1).2.tools.headD [])[0]?.map
        (fun t => t.available) = some .a_true ∧
    (Availability.a_insufficent = .a_true ∨ Availability.a_insufficent = .a_false ∨
      Availability.a_insufficent = .a_insufficent) := by
  refine ⟨by decide, by decide, ?_⟩
  have h := (C10_no_unknown_states env0 inv4 1 R1).2.2
  have hmem : [hammer_ins] ∈ (can_make_with_inventory env0 inv4 R1 1).2.components := by
    decide
  have hcm : hammer_ins ∈ [hammer_ins] := by decide
  exact h _ hmem _ hcm

/-- Helper: remarking a quality requirement is idempotent. -/
theorem mark_quality_idem (inv : inventory) (q : quality_requirement) :
    mark_quality inv (mark_quality inv q) = mark_quality inv q := rfl

/-- Helper: remarking a tool is idempotent. -/
theorem mark_tool_idem (inv : inventory) (batch : Int) (t : tool_comp) :
    mark_tool inv batch (mark_tool inv batch t) = mark_tool inv batch t := rfl

/-- Helper: remarking an item component is idempotent. -/
theorem mark_item_idem (env : GameEnv) (inv : inventory) (batch : Int)
    (c : item_comp) :
    mark_item env inv batch (mark_item env inv batch c) = mark_item env inv batch c :=
  rfl

/-- Helper: one quality-loop step changes only the availability. -/
theorem quality_demote_static (inv : inventory) (qs : List (List quality_requirement))
    (c : item_comp) (ql : String × Int) :
    (quality_demote inv qs c ql).type = c.type ∧
    (quality_demote inv qs c ql).count = c.count ∧
    (quality_demote inv qs c ql).recoverable = c.recoverable := by
  rw [quality_demote_eq]
  by_cases ht : demote_trigger inv qs c.count ql = true
  · rw [if_pos ht]; exact ⟨rfl, rfl, rfl⟩
  · rw [if_neg ht]; exact ⟨rfl, rfl, rfl⟩

/-- Helper: the whole quality loop changes only the availability. -/
theorem foldl_demote_static (inv : inventory) (qs : List (List quality_requirement)) :
    ∀ (l : List (String × Int)) (c : item_comp),
      (l.foldl (quality_demote inv qs) c).type = c.type ∧
      (l.foldl (quality_demote inv qs) c).count = c.count ∧
      (l.foldl (quality_demote inv qs) c).recoverable = c.recoverable := by
  intro l
  induction l with
  | nil => intro c; exact ⟨rfl, rfl, rfl⟩
  | cons ql rest ih =>
    intro c
    rw [List.foldl_cons]
    obtain ⟨h1, h2, h3⟩ := ih (quality_demote inv qs c ql)
    obtain ⟨g1, g2, g3⟩ := quality_demote_static inv qs c ql
    exact ⟨h1.trans g1, h2.trans g2, h3.trans g3⟩

/-- Helper: the per-component materials check changes only the
availability. -/
theorem chk_static (env : GameEnv) (inv : inventory) (batch : Int)
    (tools : List (List tool_comp)) (qs : List (List quality_requirement))
    (comp : item_comp) :
    (check_enough_materials_comp env inv batch tools qs comp).type = comp.type ∧
    (check_enough_materials_comp env inv batch tools qs comp).count = comp.count ∧
    (check_enough_materials_comp env inv batch tools qs comp).recoverable
      = comp.recoverable := by
  simp only [check_enough_materials_comp]
  split
  · have key : ∀ x : item_comp,
        (x = comp ∨ x = { comp with available := .a_insufficent }) →
        ((env.item_qualities comp.type).foldl (quality_demote inv qs) x).type
            = comp.type ∧
        ((env.item_qualities comp.type).foldl (quality_demote inv qs) x).count
            = comp.count ∧
        ((env.item_qualities comp.type).foldl (quality_demote inv qs) x).recoverable
            = comp.recoverable := by
      intro x hx
      obtain ⟨f1, f2, f3⟩ :=
        foldl_demote_static inv qs (env.item_qualities comp.type) x
      rcases hx with h | h
      · subst h; exact ⟨f1, f2, f3⟩
      · subst h; exact ⟨f1, f2, f3⟩
    apply key
    split
    · split
      · split
        · right; rfl
        · left; rfl
      · left; rfl
    · left; rfl
  · exact ⟨rfl, rfl, rfl⟩

/-- Helper: marking after the materials check equals marking alone,
because the check touches only the availability and the marking ignores
it. -/
theorem mark_item_chk_mark (env : GameEnv) (inv : inventory) (batch : Int)
    (tools : List (List tool_comp)) (qs : List (List quality_requirement))
    (c : item_comp) :
    mark_item env inv batch
        (check_enough_materials_comp env inv batch tools qs
          (mark_item env inv batch c)) =
      mark_item env inv batch c := by
  have congr_mi : ∀ d e : item_comp, d.type = e.type → d.count = e.count →
      d.recoverable = e.recoverable →
      mark_item env inv batch d = mark_item env inv batch e := by
    intro d e g1 g2 g3
    cases d; cases e
    simp only at g1 g2 g3
    subst g1; subst g2; subst g3
    rfl
  obtain ⟨h1, h2, h3⟩ :=
    chk_static env inv batch tools qs (mark_item env inv batch c)
  have h := congr_mi _ _ h1 h2 h3
  rw [h]
  rfl

/-- Helper: remarking after checking the remarked components collapses
to a single marking pass. -/
theorem map_chk_mark_collapse (env : GameEnv) (inv : inventory) (batch : Int)
    (ts : List (List tool_comp)) (qs : List (List quality_requirement))
    (cs : List (List item_comp)) :
    ((cs.map (fun g => g.map (mark_item env inv batch))).map
          (fun g => g.map (check_enough_materials_comp env inv batch ts qs))).map
        (fun g => g.map (mark_item env inv batch)) =
      cs.map (fun g => g.map (mark_item env inv batch)) := by
  rw [List.map_map, List.map_map]
  apply List.map_congr_left
  intro g _
  simp only [Function.comp_apply, List.map_map]
  apply List.map_congr_left
  intro a _
  exact mark_item_chk_mark env inv batch ts qs a

/-- C3. can_make_with_inventory is idempotent for an unchanged
inventory: running it again on its own annotated output yields the same
boolean and the same annotated requirement set. -/
theorem C3_can_make_idempotent (env : GameEnv) (inv : inventory) (batch : Int)
    (r : requirement_data) :
    can_make_with_inventory env inv
        ((can_make_with_inventory env inv r batch).2) batch =
      can_make_with_inventory env inv r batch := by
  have hQ : (r.qualities.map (fun g => g.map (mark_quality inv))).map
        (fun g => g.map (mark_quality inv)) =
      r.qualities.map (fun g => g.map (mark_quality inv)) := by
    rw [List.map_map]
    apply List.map_congr_left
    intro g _
    rw [Function.comp_apply, List.map_map]
    apply List.map_congr_left
    intro a _
    exact mark_quality_idem inv a
  have hT : (r.tools.map (fun g => g.map (mark_tool inv batch))).map
        (fun g => g.map (mark_tool inv batch)) =
      r.tools.map (fun g => g.map (mark_tool inv batch)) := by
    rw [List.map_map]
    apply List.map_congr_left
    intro g _
    rw [Function.comp_apply, List.map_map]
    apply List.map_congr_left
    intro a _
    exact mark_tool_idem inv batch a
  simp only [can_make_with_inventory, has_comps_quality, has_comps_tool,
    has_comps_item, check_enough_materials]
  rw [hQ, hT, map_chk_mark_collapse]
